import Mathlib

/-!
# Verification of the niftyterminal client library core

A shallow embedding, in Lean 4, of the session/retry/batching/merge core of
the `niftyterminal` Python client library, together with theorems settling
the specification's claims about it.

Modelling conventions:
* Python `datetime` dates are modelled as integer day numbers (days since the
  civil epoch 0000-03-01, via the standard days-from-civil conversion);
  `timedelta(days = n)` is `+ n` and date comparison is integer comparison.
* Upstream numeric JSON payloads that the code merely passes through are
  modelled as rationals (`Val`).  Python `round(x, 2)` is modelled as exact
  round-half-to-even at two decimal places on rationals.
* Python dicts are modelled as association lists in insertion order;
  `dict.get` is `lookupKey`, dict assignment is `dictInsert` (overwriting an
  existing key in place, appending a new key).
* Network I/O is modelled by oracles: a function from the attempt index (or
  from the request parameters) to the outcome of that request.  All embedded
  functions are total, which reflects the code's catch-all error handling
  (the Python functions never raise to their callers).
-/

/-! ## Scalar payloads and percent change (`_calc_percent_change`) -/

/-- Upstream numeric payload values, modelled as rationals. -/
abbrev Val := ℚ

/-- Round-half-to-even to the nearest integer (the rounding mode of Python's
built-in `round`). -/
def roundHalfEven (q : ℚ) : ℤ :=
  let f : ℤ := q.num.ediv q.den
  let r : ℚ := q - f
  if r < 1/2 then f
  else if 1/2 < r then f + 1
  else if f % 2 = 0 then f else f + 1

/-- Python `round(x, 2)`: round-half-to-even at two decimal places. -/
def round2 (q : ℚ) : ℚ := (roundHalfEven (q * 100) : ℚ) / 100

/-- Embeds `_calc_percent_change` (src/niftyterminal/api/indices.py, lines
54-61): `0` when `past` is falsy (i.e. `past == 0` for a number), otherwise
`round(((current - past) / past) * 100, 2)`. -/
def _calc_percent_change (current past : ℚ) : ℚ :=
  if past = 0 then 0
  else round2 (((current - past) / past) * 100)

/-! ## Date parsing (`strptime` models)

Python's `strptime` compiles each format into an anchored regular expression
(matched case-insensitively) and then validates the calendar date via the
`datetime` constructor.  The field parsers below reproduce the relevant
regular-expression classes: `%d` is 1-2 digits with value 1..31, `%m` is
1-2 digits with value 1..12, `%Y` is exactly 4 digits, `%H` is 1-2 digits
0..23, `%M` 0..59, `%S` 0..61, and `%b` a case-insensitive three-letter
month abbreviation.  The whole string must be consumed. -/

/-- Python `str.upper()`, modelled for ASCII text (all strings the
normalizers are applied to are ASCII upstream dates). -/
def upperAscii (s : String) : String := String.mk (s.data.map Char.toUpper)

/-- Numeric value of a list of decimal digit characters. -/
def digitsVal (ds : List Char) : Nat :=
  ds.foldl (fun a c => a * 10 + (c.toNat - 48)) 0

/-- Split off up to `maxLen` leading decimal digits (greedily). -/
def takeDigits : Nat → List Char → List Char × List Char
  | 0, cs => ([], cs)
  | _ + 1, [] => ([], [])
  | maxLen + 1, c :: cs =>
    if c.isDigit then
      let (ds, rest) := takeDigits maxLen cs
      (c :: ds, rest)
    else ([], c :: cs)

/-- Parse a 1-2 digit numeric field whose value must lie in
`[lo, hi]`; single digit `0` fields are accepted only when `lo = 0`. -/
def parseNum2 (lo hi : Nat) (cs : List Char) : Option (Nat × List Char) :=
  let (ds, rest) := takeDigits 2 cs
  if ds.isEmpty then none
  else
    let v := digitsVal ds
    if lo ≤ v ∧ v ≤ hi then some (v, rest) else none

/-- Parse exactly four digits (the `%Y` field). -/
def parseYear4 (cs : List Char) : Option (Nat × List Char) :=
  let (ds, rest) := takeDigits 4 cs
  if ds.length = 4 then some (digitsVal ds, rest) else none

/-- Upper-case month abbreviations, in month order. -/
def monthAbbrevs : List (List Char) :=
  [['J','A','N'], ['F','E','B'], ['M','A','R'], ['A','P','R'],
   ['M','A','Y'], ['J','U','N'], ['J','U','L'], ['A','U','G'],
   ['S','E','P'], ['O','C','T'], ['N','O','V'], ['D','E','C']]

/-- Parse a case-insensitive three-letter month abbreviation (`%b`). -/
def parseMonthAbbrev (cs : List Char) : Option (Nat × List Char) :=
  match cs with
  | c1 :: c2 :: c3 :: rest =>
    let key := [c1.toUpper, c2.toUpper, c3.toUpper]
    match (monthAbbrevs.indexOf key) with
    | i => if i < 12 then some (i + 1, rest) else none
  | _ => none

/-- Consume one expected literal character. -/
def parseLit (c : Char) (cs : List Char) : Option (List Char) :=
  match cs with
  | c' :: rest => if c' = c then some rest else none
  | [] => none

/-- True in a leap year (proleptic Gregorian, as Python's `datetime`). -/
def isLeap (y : Nat) : Bool := y % 4 = 0 ∧ (y % 100 ≠ 0 ∨ y % 400 = 0)

/-- Days in a month, as validated by the `datetime` constructor. -/
def daysInMonth (y m : Nat) : Nat :=
  if m = 2 then (if isLeap y then 29 else 28)
  else if m = 4 ∨ m = 6 ∨ m = 9 ∨ m = 11 then 30
  else 31

/-- Calendar validity as enforced by `datetime(year, month, day)`:
`MINYEAR = 1`, `MAXYEAR = 9999`, day within the month. -/
def validDate (y m d : Nat) : Bool :=
  1 ≤ y ∧ y ≤ 9999 ∧ 1 ≤ m ∧ m ≤ 12 ∧ 1 ≤ d ∧ d ≤ daysInMonth y m

/-- `strptime(s, "%d-%b-%Y")`: returns `(y, m, d)` on success. -/
def parse_d_b_Y (s : String) : Option (Nat × Nat × Nat) :=
  match parseNum2 1 31 s.toList with
  | none => none
  | some (d, cs1) =>
    match parseLit '-' cs1 with
    | none => none
    | some cs2 =>
      match parseMonthAbbrev cs2 with
      | none => none
      | some (m, cs3) =>
        match parseLit '-' cs3 with
        | none => none
        | some cs4 =>
          match parseYear4 cs4 with
          | none => none
          | some (y, cs5) =>
            if cs5.isEmpty ∧ validDate y m d then some (y, m, d) else none

/-- `strptime(s, "%Y-%m-%d")`: returns `(y, m, d)` on success. -/
def parse_Y_m_d (s : String) : Option (Nat × Nat × Nat) :=
  match parseYear4 s.toList with
  | none => none
  | some (y, cs1) =>
    match parseLit '-' cs1 with
    | none => none
    | some cs2 =>
      match parseNum2 1 12 cs2 with
      | none => none
      | some (m, cs3) =>
        match parseLit '-' cs3 with
        | none => none
        | some cs4 =>
          match parseNum2 1 31 cs4 with
          | none => none
          | some (d, cs5) =>
            if cs5.isEmpty ∧ validDate y m d then some (y, m, d) else none

/-- The trailing `" %H:%M"` or `" %H:%M:%S"` of the timestamp formats;
`withSecs` selects the variant.  Returns the unconsumed remainder. -/
def parseTimeTail (withSecs : Bool) (cs : List Char) : Option (List Char) :=
  match parseLit ' ' cs with
  | none => none
  | some cs1 =>
    match parseNum2 0 23 cs1 with
    | none => none
    | some (_, cs2) =>
      match parseLit ':' cs2 with
      | none => none
      | some cs3 =>
        match parseNum2 0 59 cs3 with
        | none => none
        | some (_, cs4) =>
          if withSecs then
            match parseLit ':' cs4 with
            | none => none
            | some cs5 =>
              match parseNum2 0 61 cs5 with
              | none => none
              | some (_, cs6) => some cs6
          else some cs4

/-- `strptime(s, "%d-%b-%Y %H:%M:%S")` (when `withSecs`) or
`strptime(s, "%d-%b-%Y %H:%M")`: returns the date part `(y, m, d)`. -/
def parse_d_b_Y_time (withSecs : Bool) (s : String) : Option (Nat × Nat × Nat) :=
  match parseNum2 1 31 s.toList with
  | none => none
  | some (d, cs1) =>
    match parseLit '-' cs1 with
    | none => none
    | some cs2 =>
      match parseMonthAbbrev cs2 with
      | none => none
      | some (m, cs3) =>
        match parseLit '-' cs3 with
        | none => none
        | some cs4 =>
          match parseYear4 cs4 with
          | none => none
          | some (y, cs5) =>
            match parseTimeTail withSecs cs5 with
            | none => none
            | some cs6 =>
              if cs6.isEmpty ∧ validDate y m d then some (y, m, d) else none

/-- Left-pad the decimal representation of `n` with zeros to width `w`
(`strftime` zero-padded numeric fields). -/
def padNum (w n : Nat) : String :=
  let s := toString n
  String.mk (List.replicate (w - s.length) '0') ++ s

/-- `strftime("%Y-%m-%d")`. -/
def fmtYMD (y m d : Nat) : String :=
  padNum 4 y ++ "-" ++ padNum 2 m ++ "-" ++ padNum 2 d

/-! ## The date-normalization helpers of `api/indices.py` -/

/-- Embeds `_parse_timestamp_to_date` (src/niftyterminal/api/indices.py,
lines 33-50): try `"%d-%b-%Y %H:%M:%S"` then `"%d-%b-%Y %H:%M"`, formatting
the date part as `YYYY-MM-DD`; every failure yields the empty string. -/
def _parse_timestamp_to_date (s : String) : String :=
  match parse_d_b_Y_time true s with
  | some (y, m, d) => fmtYMD y m d
  | none =>
    match parse_d_b_Y_time false s with
    | some (y, m, d) => fmtYMD y m d
    | none => ""

/-- Embeds `_normalize_date` (src/niftyterminal/api/indices.py, lines
249-276): try `"%d-%b-%Y"` on the upper-cased input and reformat; otherwise
check `"%Y-%m-%d"` and return the input unchanged; otherwise fall through,
also returning the input unchanged. -/
def _normalize_date (s : String) : String :=
  match parse_d_b_Y (upperAscii s) with
  | some (y, m, d) => fmtYMD y m d
  | none =>
    match parse_Y_m_d s with
    | some _ => s
    | none => s

/-! ## Date-Range Batcher (`get_index_historical_data`, lines 338-345)

Dates are integer day numbers; `timedelta(days = n)` is `+ n`.  The Python
`while` loop is embedded with an explicit fuel argument; the fuel supplied
by `dateBatches` is proved sufficient in the lemmas below (each iteration
advances `current` by at least one day). -/

/-- `MAX_DAYS_PER_REQUEST` (src/niftyterminal/api/indices.py, line 246). -/
def MAX_DAYS_PER_REQUEST : ℤ := 364

/-- The batching loop body: while `current < end`, emit
`(current, min (current + MAX_DAYS_PER_REQUEST) end)` and advance `current`
to the emitted end plus one day. -/
def batchLoop (endD : ℤ) : Nat → ℤ → List (ℤ × ℤ)
  | 0, _ => []
  | fuel + 1, current =>
    if current < endD then
      let e := min (current + MAX_DAYS_PER_REQUEST) endD
      (current, e) :: batchLoop endD fuel (e + 1)
    else []

/-- Embeds the date-batch generation of `get_index_historical_data`
(src/niftyterminal/api/indices.py, lines 338-345). -/
def dateBatches (startD endD : ℤ) : List (ℤ × ℤ) :=
  batchLoop endD ((endD - startD).toNat + 1) startD

/-! ## Dicts and descending key sort

Python dicts are association lists; `sorted(keys, reverse=True)` is an
insertion sort by the string order (Lean's `String` order is lexicographic
by code point, as Python's). -/

/-- `dict.get(k)` / `dict[k]`. -/
def lookupKey {β : Type} (m : List (String × β)) (k : String) : Option β :=
  match m with
  | [] => none
  | (k', v) :: rest => if k' = k then some v else lookupKey rest k

/-- `dict[k] = v`: overwrite an existing key in place, append a new key. -/
def dictInsert {β : Type} (m : List (String × β)) (k : String) (v : β) :
    List (String × β) :=
  match m with
  | [] => [(k, v)]
  | (k', v') :: rest =>
    if k' = k then (k', v) :: rest else (k', v') :: dictInsert rest k v

/-- Insert into a descending-sorted list of strings. -/
def insertDesc (x : String) : List String → List String
  | [] => [x]
  | y :: ys => if y ≤ x then x :: y :: ys else y :: insertDesc x ys

/-- `sorted(l, reverse=True)` on strings. -/
def sortDesc (l : List String) : List String := l.foldr insertDesc []

/-! ## Series Merge (`get_index_historical_data`, lines 400-425) -/

/-- One entry of `price_data`: the per-date attribute set built at lines
366-373 (`.get` defaults for missing upstream fields are folded into the
oracle rows). -/
structure PriceRec where
  indexName : String
  openVal : Val
  high : Val
  low : Val
  close : Val
  volume : Val
deriving DecidableEq

/-- One entry of `yield_data`: the per-date attribute set built at lines
394-398 (`IY_PE` etc. may be upstream `null`, hence `Option`). -/
structure YieldRec where
  PE : Option Val
  PB : Option Val
  divYield : Option Val
deriving DecidableEq

/-- One merged output record (the dict literal at lines 410-421). -/
structure MergedRec where
  indexName : String
  date : String
  openVal : Val
  high : Val
  low : Val
  close : Val
  volume : Val
  PE : Option Val
  PB : Option Val
  divYield : Option Val
deriving DecidableEq

/-- The body of the merge loop for one `date_key`:
`price = price_data[date_key]`, `yields = yield_data.get(date_key, empty)`,
and each valuation field is `yields.get(field)` (so `none` when the date is
absent from `yield_data` or the upstream value was `null`). -/
def mergeRecord (price_data : List (String × PriceRec))
    (yield_data : List (String × YieldRec)) (date_key : String) :
    Option MergedRec :=
  (lookupKey price_data date_key).map fun price =>
    { indexName := price.indexName
      date := date_key
      openVal := price.openVal
      high := price.high
      low := price.low
      close := price.close
      volume := price.volume
      PE := (lookupKey yield_data date_key).bind YieldRec.PE
      PB := (lookupKey yield_data date_key).bind YieldRec.PB
      divYield := (lookupKey yield_data date_key).bind YieldRec.divYield }

/-- Embeds the final merge step of `get_index_historical_data`
(src/niftyterminal/api/indices.py, lines 400-425): empty `price_data`
short-circuits to the empty result; otherwise one record per price date,
iterated in descending key order.  `none` models the empty-dict result. -/
def mergeHistorical (price_data : List (String × PriceRec))
    (yield_data : List (String × YieldRec)) : Option (List MergedRec) :=
  if price_data.isEmpty then none
  else
    some ((sortDesc (price_data.map Prod.fst)).filterMap
      (mergeRecord price_data yield_data))

/-- Concrete example input for the Series Merge (the spec's example
`price = a single record for 2025-01-02`). -/
def pEx : List (String × PriceRec) :=
  [("2025-01-02", ⟨"NIFTY 50", 1, 2, 3, 4, 5⟩)]

/-! ## Session layer (`core/session.py`)

The transport is an oracle from the attempt index to that attempt's
outcome.  Parsed JSON bodies are modelled as flat string dictionaries
(`JsonDict`); only their emptiness matters to the session logic.  Sleep
intervals are (min, max) pairs of rational seconds. -/

/-- `NSE_BASE_URL` (src/niftyterminal/core/session.py, line 31). -/
def NSE_BASE_URL : String := "https://www.nseindia.com"

/-- `NSE_HOMEPAGE` (line 32). -/
def NSE_HOMEPAGE : String := NSE_BASE_URL

/-- `NSE_OPTION_CHAIN` (line 33). -/
def NSE_OPTION_CHAIN : String := NSE_BASE_URL ++ "/option-chain"

/-- `WARMUP_DELAY_MIN` (line 36): 0.1 seconds. -/
def WARMUP_DELAY_MIN : ℚ := 1/10

/-- `WARMUP_DELAY_MAX` (line 37): 0.2 seconds. -/
def WARMUP_DELAY_MAX : ℚ := 1/5

/-- Observable behaviour of one warmup run: its boolean return value, the
URLs it GETs, and the (min, max) intervals of its randomized sleeps. -/
structure WarmupResult where
  ok : Bool
  gets : List String
  sleeps : List (ℚ × ℚ)
deriving DecidableEq

/-- Embeds `_warmup_session` (src/niftyterminal/core/session.py, lines
82-112) and its async twin `_awarmup_session` (lines 49-79), which share
one state machine: a single GET to `NSE_HOMEPAGE`; on 2xx success one
randomized sleep (interval [0.1, 0.2] when `fast`, [0.3, 0.5] otherwise)
and return `true`; on transport error return `false`, with no sleep and no
retry inside warmup.  `homeOk` is the outcome of the homepage request. -/
def _warmup_session (homeOk : Bool) (fast : Bool) : WarmupResult :=
  if homeOk then
    { ok := true
      gets := [NSE_HOMEPAGE]
      sleeps :=
        [if fast then (WARMUP_DELAY_MIN, WARMUP_DELAY_MAX) else (3/10, 1/2)] }
  else
    { ok := false, gets := [NSE_HOMEPAGE], sleeps := [] }

/-- A parsed top-level JSON object, abstracted to its items. -/
abbrev JsonDict := List (String × String)

/-- Outcome of the target GET of one one-shot fetch attempt. -/
inductive GetOutcome where
  | transportError : GetOutcome
  | okNonJson : GetOutcome
  | okJson : JsonDict → GetOutcome
deriving DecidableEq

/-- Transport behaviour of one one-shot fetch attempt: the warmup
outcome, then the target-GET outcome. -/
structure AttemptOutcome where
  warmupOk : Bool
  get : GetOutcome
deriving DecidableEq

/-- Observable events of the one-shot fetch loop. -/
inductive FetchEvent where
  | clientCreate : FetchEvent
  | warmupCall : FetchEvent
  | getCall : String → FetchEvent
  | sleepBackoff : FetchEvent
  | clientClose : FetchEvent
deriving DecidableEq

/-- Events of one iteration of the one-shot `fetch` loop
(src/niftyterminal/core/session.py, lines 253-271): enter the `with`
block (client creation), run warmup; if warmup failed and `canRetry`
(`attempt < retries`), sleep and continue; otherwise issue the GET with
`Referer: NSE_OPTION_CHAIN`; on transport error or invalid-JSON body,
sleep only if `canRetry`; the `with` block closes the client on every
path, including the early `return`. -/
def attemptTrace (a : AttemptOutcome) (canRetry : Bool) : List FetchEvent :=
  if a.warmupOk = false ∧ canRetry then
    [FetchEvent.clientCreate, FetchEvent.warmupCall, FetchEvent.sleepBackoff,
     FetchEvent.clientClose]
  else
    FetchEvent.clientCreate :: FetchEvent.warmupCall ::
      FetchEvent.getCall NSE_OPTION_CHAIN ::
      (match a.get with
       | GetOutcome.okJson _ => [FetchEvent.clientClose]
       | _ =>
         if canRetry then [FetchEvent.sleepBackoff, FetchEvent.clientClose]
         else [FetchEvent.clientClose])

/-- Result of one iteration of the one-shot `fetch` loop: `some` parsed
JSON exactly when this attempt returns. -/
def attemptResult (a : AttemptOutcome) (canRetry : Bool) : Option JsonDict :=
  if a.warmupOk = false ∧ canRetry then none
  else
    match a.get with
    | GetOutcome.okJson j => some j
    | _ => none

/-- The `for attempt in range(retries + 1)` loop of the one-shot `fetch`,
over the list of remaining attempt indices; returns the final result and
the per-attempt event segments. -/
def fetchLoop (tr : Nat → AttemptOutcome) (retries : Nat) :
    List Nat → Option JsonDict × List (List FetchEvent)
  | [] => (none, [])
  | i :: rest =>
    match attemptResult (tr i) (decide (i < retries)) with
    | some j => (some j, [attemptTrace (tr i) (decide (i < retries))])
    | none =>
      let r := fetchLoop tr retries rest
      (r.1, attemptTrace (tr i) (decide (i < retries)) :: r.2)

/-- Embeds the one-shot `fetch` (src/niftyterminal/core/session.py, lines
249-272; `afetch`, lines 223-246, is the identical state machine).
`none` models the empty-dict sentinel returned after exhausting all
`retries + 1` attempts. -/
def fetch (tr : Nat → AttemptOutcome) (retries : Nat) :
    Option JsonDict × List (List FetchEvent) :=
  fetchLoop tr retries (List.range (retries + 1))

/-- The spec's example transport: warmup fails on attempts 0 and 1 and
succeeds on attempt 2, which then returns a parsed JSON body. -/
def trEx : Nat → AttemptOutcome := fun i =>
  if i < 2 then ⟨false, GetOutcome.transportError⟩
  else ⟨true, GetOutcome.okJson [("k", "v")]⟩

/-! ## Reusable session handle (`NSESession` / `AsyncNSESession`) -/

/-- Outcome of one GET issued through an existing session. -/
inductive SessOutcome where
  | transportError : SessOutcome
  | okBody : Option JsonDict → SessOutcome
deriving DecidableEq

/-- Embeds `_fetch_with_session` (src/niftyterminal/core/session.py, lines
132-146; `_afetch_with_session`, lines 115-129): a transport error or a
JSON decode failure yields the empty dict, otherwise the parsed body — so
a 2xx response whose body is the empty JSON object is indistinguishable
from a failure in the return value. -/
def _fetch_with_session (o : SessOutcome) : JsonDict :=
  match o with
  | SessOutcome.transportError => []
  | SessOutcome.okBody none => []
  | SessOutcome.okBody (some j) => j

/-- Observable outcome of one `NSESession.fetch` call: its return value,
the number of request attempts (`_fetch_with_session` calls), the number
of fast re-warmups run inside the retry loop, and the final cached
warmed-up flag. -/
structure SessionFetchResult where
  result : JsonDict
  requestAttempts : Nat
  rewarmups : Nat
  warmedUp : Bool
deriving DecidableEq

/-- The `for attempt in range(retries + 1)` loop of `NSESession.fetch`
(src/niftyterminal/core/session.py, lines 211-220; `AsyncNSESession.fetch`,
lines 174-183): a falsy (empty) per-attempt result counts as a failed
attempt; when retries remain the loop sleeps and re-runs warmup in fast
mode, storing its outcome (`warmO i`) in the warmed-up flag. -/
def sessionFetchLoop (getO : Nat → SessOutcome) (warmO : Nat → Bool)
    (retries : Nat) (warmed : Bool) : List Nat → SessionFetchResult
  | [] => ⟨[], 0, 0, warmed⟩
  | i :: rest =>
    let r := _fetch_with_session (getO i)
    if r ≠ [] then ⟨r, 1, 0, warmed⟩
    else if i < retries then
      let res := sessionFetchLoop getO warmO retries (warmO i) rest
      ⟨res.result, res.requestAttempts + 1, res.rewarmups + 1, res.warmedUp⟩
    else
      let res := sessionFetchLoop getO warmO retries warmed rest
      ⟨res.result, res.requestAttempts + 1, res.rewarmups, res.warmedUp⟩

/-- Embeds `NSESession.fetch` (src/niftyterminal/core/session.py, lines
206-220): if the cached warmed-up flag is false, one fast warmup first
(outcome `preWarmOk`), then the retry loop over `retries + 1` attempts. -/
def sessionFetch (getO : Nat → SessOutcome) (warmO : Nat → Bool)
    (preWarmOk : Bool) (warmed0 : Bool) (retries : Nat) : SessionFetchResult :=
  sessionFetchLoop getO warmO retries (if warmed0 then warmed0 else preWarmOk)
    (List.range (retries + 1))

/-! ## Index master list (`get_index_list`, lines 178-238) -/

/-- `SECTORAL_OVERRIDE` (src/niftyterminal/api/indices.py, line 14).  The
source comment describes it as the sectoral indices that appear in the
derivatives list but should be marked as sectoral. -/
def SECTORAL_OVERRIDE : List String := ["NIFTY BANK", "NIFTY FIN SERVICE"]

/-- `SKIP_CATEGORIES` (line 175). -/
def SKIP_CATEGORIES : List String := ["Others"]

/-- One record of `get_index_list`'s output (the dict literals at lines
221-225 and 230-234). -/
structure IndexListEntry where
  indexName : String
  subType : String
  derivativesEligiblity : Bool
deriving DecidableEq

/-- Embeds `get_index_list` (src/niftyterminal/api/indices.py, lines
200-238), taking the fetched upstream index-master dict (category to list
of index names, in insertion order) as input; `none` models the empty-dict
result when the fetch fails or returns an empty dict.  `SECTORAL_OVERRIDE`
is defined in the source but never consulted here (nor anywhere else). -/
def get_index_list (data : List (String × List String)) :
    Option (List IndexListEntry) :=
  if data.isEmpty then none
  else
    let derivatives_list :=
      (lookupKey data "Indices Eligible in Derivatives").getD []
    some (data.foldl (fun acc cat_indices =>
      if cat_indices.1 ∈ SKIP_CATEGORIES then acc
      else if cat_indices.1 = "Indices Eligible in Derivatives" then
        acc ++ cat_indices.2.map (fun n =>
          { indexName := n, subType := "Broad Market Indices",
            derivativesEligiblity := true })
      else
        acc ++ cat_indices.2.map (fun n =>
          { indexName := n, subType := cat_indices.1,
            derivativesEligiblity := derivatives_list.contains n })) [])

/-! ## Documented vs emitted output shape (`get_index_historical_data`) -/

/-- The per-record keys of the dict literal `get_index_historical_data`
actually emits (src/niftyterminal/api/indices.py, lines 410-421; the field
names of `MergedRec`, with `indexName` the emitted spelling of the first
key), in order. -/
def indexHistoricalRecordKeys : List String :=
  ["indexName", "date", "open", "high", "low", "close", "volume",
   "PE", "PB", "divYield"]

/-- The top-level key the code actually returns (line 424). -/
def indexHistoricalTopLevelKey : String := "indexData"

/-- The per-record keys enumerated by the function's own docstring
(lines 298-307), in order. -/
def indexHistoricalDocRecordKeys : List String :=
  ["indexSymbol", "date", "open", "high", "low", "close",
   "PE", "PB", "divYield"]

/-- The top-level key promised by the docstring (line 298) and by its
usage example (line 314). -/
def indexHistoricalDocTopLevelKey : String := "data"

/-! ## The full historical-data entry point (`get_index_historical_data`)

The network is modelled by one oracle per endpoint, mapping a batch's
(from, to) day pair to `some rows` when the fetch succeeded and the
response carried a "data" list, and `none` otherwise.  URL formatting is
abstracted to the batch day pair itself. -/

/-- Day number of a civil date (days since 0000-03-01, standard
days-from-civil conversion; valid for `y ≥ 1` as guaranteed by
`validDate`). -/
def daysFromCivil (y m d : Nat) : ℤ :=
  let y' := if m ≤ 2 then y - 1 else y
  let era := y' / 400
  let yoe := y' % 400
  let mp := (m + 9) % 12
  let doy := (153 * mp + 2) / 5 + d - 1
  let doe := yoe * 365 + yoe / 4 - yoe / 100 + doy
  ((era * 146097 + doe : Nat) : ℤ)

/-- `datetime.strptime(s, "%Y-%m-%d")` as a day number; comparing day
numbers of valid dates agrees with Python's `datetime` comparison. -/
def parseYMDDay (s : String) : Option ℤ :=
  (parse_Y_m_d s).map (fun t => daysFromCivil t.1 t.2.1 t.2.2)

/-- One element of a price-history response's "data" list (lines 361-373;
the `.get` defaults for missing fields are folded into the row). -/
structure HistRow where
  eodTimestamp : String
  eodIndexName : String
  eodOpen : Val
  eodHigh : Val
  eodLow : Val
  eodClose : Val
  hitTradedQty : Val
deriving DecidableEq

/-- One element of a yield response's "data" list (lines 389-398). -/
structure YieldRow where
  iyDt : String
  iyPe : Option Val
  iyPb : Option Val
  iyDy : Option Val
deriving DecidableEq

/-- Which of the two NSE historical endpoints a fetch targets. -/
inductive Endpoint where
  | historyEp : Endpoint
  | yieldEp : Endpoint
deriving DecidableEq

/-- One network fetch issued by `get_index_historical_data`. -/
structure FetchCall where
  ep : Endpoint
  fromDay : ℤ
  toDay : ℤ
deriving DecidableEq

/-- The price-data accumulation loop (lines 347-373): for each batch, on a
usable response insert each row under its normalized date (skipping rows
whose normalized date is empty). -/
def buildPriceData (oracle : ℤ × ℤ → Option (List HistRow))
    (batches : List (ℤ × ℤ)) : List (String × PriceRec) :=
  batches.foldl (fun acc b =>
    match oracle b with
    | none => acc
    | some rows => rows.foldl (fun acc2 item =>
        let nd := _normalize_date item.eodTimestamp
        if nd ≠ "" then
          dictInsert acc2 nd
            ⟨item.eodIndexName, item.eodOpen, item.eodHigh, item.eodLow,
             item.eodClose, item.hitTradedQty⟩
        else acc2) acc) []

/-- The yield-data accumulation loop (lines 375-398). -/
def buildYieldData (oracle : ℤ × ℤ → Option (List YieldRow))
    (batches : List (ℤ × ℤ)) : List (String × YieldRec) :=
  batches.foldl (fun acc b =>
    match oracle b with
    | none => acc
    | some rows => rows.foldl (fun acc2 item =>
        let nd := _normalize_date item.iyDt
        if nd ≠ "" then
          dictInsert acc2 nd ⟨item.iyPe, item.iyPb, item.iyDy⟩
        else acc2) acc) []

/-- Embeds `get_index_historical_data` (src/niftyterminal/api/indices.py,
lines 279-425): parse and validate the dates (an unparseable date or
`start > end` short-circuits to the empty result before any fetch), batch
the range, fetch and accumulate both series, merge.  Returns the result
together with the list of fetch calls issued.  `end_date = none` models
the `end_date=None` default (today, `nowDay`). -/
def get_index_historical_data
    (oracleHist : ℤ × ℤ → Option (List HistRow))
    (oracleYield : ℤ × ℤ → Option (List YieldRow))
    (nowDay : ℤ) (start_date : String) (end_date : Option String) :
    Option (List MergedRec) × List FetchCall :=
  match parseYMDDay start_date with
  | none => (none, [])
  | some startD =>
    match (match end_date with
           | some ed => parseYMDDay ed
           | none => some nowDay) with
    | none => (none, [])
    | some endD =>
      if endD < startD then (none, [])
      else
        let batches := dateBatches startD endD
        (mergeHistorical (buildPriceData oracleHist batches)
            (buildYieldData oracleYield batches),
          batches.map (fun b => ⟨Endpoint.historyEp, b.1, b.2⟩) ++
            batches.map (fun b => ⟨Endpoint.yieldEp, b.1, b.2⟩))

/-! ## Theorems -/

/-- C9: `_calc_percent_change` returns `((current - past) / past) * 100`
rounded (half-to-even) to 2 decimal places when `past` is nonzero, and `0`
whenever `past = 0`; in particular `calc 110 100 = 10` and
`calc 90 100 = -10`. -/
theorem calc_percent_change_spec :
    (∀ current past : ℚ,
      _calc_percent_change current past =
        if past = 0 then 0 else round2 (((current - past) / past) * 100)) ∧
    _calc_percent_change 110 100 = 10 ∧
    _calc_percent_change 90 100 = -10 ∧
    (∀ x : ℚ, _calc_percent_change x 0 = 0) := by
  refine ⟨fun current past => rfl, ?_, ?_, fun x => rfl⟩
  · norm_num [_calc_percent_change, round2, roundHalfEven]
  · norm_num [_calc_percent_change, round2, roundHalfEven]

/-- C8: the date-normalization helpers are total (they never raise);
`"03-JAN-2025"` and `"03-Jan-2025 16:00:00"` normalize to `"2025-01-03"`;
whenever the `DD-Mon-YYYY` parse fails, `_normalize_date` returns its input
unchanged (in particular a string already in `YYYY-MM-DD` form passes
through unchanged, and garbage is returned unchanged), while an unparseable
string maps to the empty string under `_parse_timestamp_to_date`. -/
theorem date_normalization_spec :
    _normalize_date "03-JAN-2025" = "2025-01-03" ∧
    _parse_timestamp_to_date "03-Jan-2025 16:00:00" = "2025-01-03" ∧
    (∀ s, parse_d_b_Y (upperAscii s) = none → _normalize_date s = s) ∧
    _normalize_date "2025-01-03" = "2025-01-03" ∧
    _parse_timestamp_to_date "garbage" = "" ∧
    _normalize_date "garbage" = "garbage" := by
  refine ⟨by decide, by decide, fun s h => ?_, by decide, by decide, by decide⟩
  unfold _normalize_date
  rw [h]
  cases parse_Y_m_d s <;> rfl

/-- Witness for C8: the universally-quantified passthrough conjunct applied
at the concrete already-normalized string `"2025-01-03"`. -/
theorem date_normalization_spec_witness :
    _normalize_date "2025-01-03" = "2025-01-03" :=
  date_normalization_spec.2.2.1 "2025-01-03" (by decide)

/-! ### Date-Range Batcher lemmas -/

theorem batchLoop_stop (endD : ℤ) (fuel : Nat) (c : ℤ) (h : ¬ c < endD) :
    batchLoop endD fuel c = [] := by
  cases fuel with
  | zero => rfl
  | succ n => simp [batchLoop, h]

theorem batchLoop_mem_bounds (endD : ℤ) (fuel : Nat) :
    ∀ c, ∀ b ∈ batchLoop endD fuel c,
      c ≤ b.1 ∧ b.1 ≤ b.2 ∧ b.2 - b.1 ≤ MAX_DAYS_PER_REQUEST ∧ b.2 ≤ endD := by
  induction fuel with
  | zero => intro c b hb; simp [batchLoop] at hb
  | succ n ih =>
    intro c b hb
    by_cases hc : c < endD
    · rw [batchLoop, if_pos hc] at hb
      rcases List.mem_cons.mp hb with h1 | h1
      · subst h1
        simp only [MAX_DAYS_PER_REQUEST]
        omega
      · have h2 := ih _ b h1
        simp only [MAX_DAYS_PER_REQUEST] at h2 ⊢
        omega
    · rw [batchLoop, if_neg hc] at hb
      simp at hb


theorem batchLoop_head_start (endD : ℤ) (fuel : Nat) (c : ℤ) :
    ∀ b ∈ (batchLoop endD fuel c).head?, b.1 = c := by
  intro b hb
  cases fuel with
  | zero => simp [batchLoop] at hb
  | succ n =>
    by_cases hc : c < endD
    · rw [batchLoop, if_pos hc] at hb
      simp at hb
      rw [← hb]
    · rw [batchLoop, if_neg hc] at hb
      simp at hb

theorem batchLoop_chain (endD : ℤ) (fuel : Nat) :
    ∀ c, List.Chain' (fun b1 b2 => b2.1 = b1.2 + 1) (batchLoop endD fuel c) := by
  induction fuel with
  | zero => intro c; simp [batchLoop]
  | succ n ih =>
    intro c
    by_cases hc : c < endD
    · rw [batchLoop, if_pos hc]
      refine List.chain'_cons'.mpr ⟨?_, ih _⟩
      intro b hb
      exact batchLoop_head_start endD n _ b hb
    · rw [batchLoop, if_neg hc]
      simp

theorem batchLoop_pairwise (endD : ℤ) (fuel : Nat) :
    ∀ c, List.Pairwise (fun b1 b2 => b1.2 < b2.1) (batchLoop endD fuel c) := by
  induction fuel with
  | zero => intro c; simp [batchLoop]
  | succ n ih =>
    intro c
    by_cases hc : c < endD
    · rw [batchLoop, if_pos hc]
      refine List.Pairwise.cons ?_ (ih _)
      intro b hb
      have h2 := batchLoop_mem_bounds endD n _ b hb
      omega
    · rw [batchLoop, if_neg hc]
      simp

theorem batchLoop_cover (endD : ℤ) (fuel : Nat) :
    ∀ c, c ≤ endD → endD - c < fuel → ∀ d : ℤ,
      ((∃ b ∈ batchLoop endD fuel c, b.1 ≤ d ∧ d ≤ b.2) ↔
        (c ≤ d ∧ d ≤ if (endD - c) % 365 = 0 then endD - 1 else endD)) := by
  induction fuel with
  | zero => intro c hce hf; omega
  | succ n ih =>
    intro c hce hf d
    by_cases hc : c < endD
    · simp only [batchLoop, if_pos hc, MAX_DAYS_PER_REQUEST, List.mem_cons]
      by_cases he : endD ≤ c + 364
      · rw [min_eq_right he]
        rw [batchLoop_stop endD n (endD + 1) (by omega)]
        have hmod : ¬ (endD - c) % 365 = 0 := by omega
        rw [if_neg hmod]
        simp only [List.not_mem_nil, or_false]
        constructor
        · rintro ⟨b, hb, hb1, hb2⟩
          rw [hb] at hb1 hb2
          simp only at hb1 hb2
          omega
        · intro hd
          exact ⟨(c, endD), rfl, by omega⟩
      · rw [min_eq_left (by omega : c + 364 ≤ endD)]
        have hih := ih (c + 364 + 1) (by omega) (by omega) d
        have hmodeq : (endD - (c + 364 + 1)) % 365 = (endD - c) % 365 := by omega
        rw [hmodeq] at hih
        by_cases hmod : (endD - c) % 365 = 0
        · rw [if_pos hmod] at hih ⊢
          constructor
          · rintro ⟨b, hb, hb1, hb2⟩
            rcases hb with h1 | h1
            · rw [h1] at hb1 hb2
              simp only at hb1 hb2
              omega
            · have h2 := hih.mp ⟨b, h1, hb1, hb2⟩
              omega
          · intro hd
            by_cases hdlo : d ≤ c + 364
            · exact ⟨(c, c + 364), Or.inl rfl, by omega⟩
            · obtain ⟨b, hb, hbd⟩ := hih.mpr (by omega)
              exact ⟨b, Or.inr hb, hbd⟩
        · rw [if_neg hmod] at hih ⊢
          constructor
          · rintro ⟨b, hb, hb1, hb2⟩
            rcases hb with h1 | h1
            · rw [h1] at hb1 hb2
              simp only at hb1 hb2
              omega
            · have h2 := hih.mp ⟨b, h1, hb1, hb2⟩
              omega
          · intro hd
            by_cases hdlo : d ≤ c + 364
            · exact ⟨(c, c + 364), Or.inl rfl, by omega⟩
            · obtain ⟨b, hb, hbd⟩ := hih.mpr (by omega)
              exact ⟨b, Or.inr hb, hbd⟩
    · rw [batchLoop_stop endD (n + 1) c hc]
      have h0 : c = endD := by omega
      have hmod : (endD - c) % 365 = 0 := by omega
      rw [if_pos hmod]
      constructor
      · rintro ⟨b, hb, _⟩
        exact absurd hb (List.not_mem_nil b)
      · intro hd
        exact absurd hd (by omega)

/-- C1 (counterexample): contrary to the claim, for `start == end` the
batching loop emits no batch at all (the loop guard `current < end` fails
immediately), so no "first batch" exists and the union of the batches is
empty rather than the single day; moreover when `end - start` is exactly
365 days the final day is covered by no batch (`dateBatches 0 365` stops
at day 364). -/
theorem date_range_batcher_counterexample :
    dateBatches 0 0 = [] ∧ dateBatches 0 365 = [(0, 364)] := by decide

/-- C1 (amended): for `start ≤ end` with `max_span_days = 364`, the emitted
batches are contiguous (each next batch starts the day after the previous
one ends), non-overlapping, each of span at most 364 days, and the first
batch (when one exists) starts at `start`; their union is exactly
`[start, end]` when `end - start` is not a multiple of 365, and exactly
`[start, end - 1]` when it is (in particular empty for `start = end`);
splitting day 1 to day 1000 yields `(1,365), (366,730), (731,1000)`. -/
theorem date_range_batcher_amended (s e : ℤ) (h : s ≤ e) :
    (∀ b ∈ dateBatches s e, b.1 ≤ b.2 ∧ b.2 - b.1 ≤ MAX_DAYS_PER_REQUEST) ∧
    List.Chain' (fun b1 b2 => b2.1 = b1.2 + 1) (dateBatches s e) ∧
    List.Pairwise (fun b1 b2 => b1.2 < b2.1) (dateBatches s e) ∧
    (∀ b ∈ (dateBatches s e).head?, b.1 = s) ∧
    (∀ d : ℤ, (∃ b ∈ dateBatches s e, b.1 ≤ d ∧ d ≤ b.2) ↔
      (s ≤ d ∧ d ≤ if (e - s) % 365 = 0 then e - 1 else e)) ∧
    dateBatches 1 1000 = [(1, 365), (366, 730), (731, 1000)] := by
  refine ⟨?_, ?_, ?_, ?_, ?_, by decide⟩
  · intro b hb
    have h2 := batchLoop_mem_bounds e _ s b hb
    exact ⟨h2.2.1, h2.2.2.1⟩
  · exact batchLoop_chain e _ s
  · exact batchLoop_pairwise e _ s
  · exact batchLoop_head_start e _ s
  · exact batchLoop_cover e _ s h (by omega)

/-- Witness for C1 (amended): the theorem applied at the concrete range
day 1 to day 1000. -/
theorem date_range_batcher_amended_witness :
    dateBatches 1 1000 = [(1, 365), (366, 730), (731, 1000)] :=
  (date_range_batcher_amended 1 1000 (by decide)).2.2.2.2.2

/-! ### Series Merge lemmas -/

theorem insertDesc_perm (x : String) (l : List String) :
    List.Perm (insertDesc x l) (x :: l) := by
  induction l with
  | nil => exact List.Perm.refl _
  | cons y ys ih =>
    by_cases h : y ≤ x
    · rw [insertDesc, if_pos h]
    · rw [insertDesc, if_neg h]
      exact (ih.cons y).trans (List.Perm.swap x y ys)

theorem sortDesc_perm (l : List String) : List.Perm (sortDesc l) l := by
  induction l with
  | nil => exact List.Perm.refl _
  | cons x xs ih => exact (insertDesc_perm x (sortDesc xs)).trans (ih.cons x)

theorem insertDesc_sorted (x : String) (l : List String)
    (h : List.Pairwise (fun a b => b ≤ a) l) :
    List.Pairwise (fun a b => b ≤ a) (insertDesc x l) := by
  induction l with
  | nil => simp [insertDesc]
  | cons y ys ih =>
    rcases List.pairwise_cons.mp h with ⟨hy, hys⟩
    by_cases hle : y ≤ x
    · rw [insertDesc, if_pos hle]
      refine List.pairwise_cons.mpr ⟨?_, h⟩
      intro b hb
      rcases List.mem_cons.mp hb with rfl | hb'
      · exact hle
      · exact le_trans (hy b hb') hle
    · rw [insertDesc, if_neg hle]
      refine List.pairwise_cons.mpr ⟨?_, ih hys⟩
      intro b hb
      have hmem := (insertDesc_perm x ys).mem_iff.mp hb
      rcases List.mem_cons.mp hmem with rfl | hb'
      · exact le_of_not_le hle
      · exact hy b hb'

theorem sortDesc_sorted (l : List String) :
    List.Pairwise (fun a b => b ≤ a) (sortDesc l) := by
  induction l with
  | nil => simp [sortDesc]
  | cons x xs ih => exact insertDesc_sorted x _ ih

theorem lookupKey_isSome_of_mem {β : Type} (m : List (String × β)) (k : String)
    (h : k ∈ m.map Prod.fst) : ∃ v, lookupKey m k = some v := by
  induction m with
  | nil => simp at h
  | cons p rest ih =>
    obtain ⟨k', v⟩ := p
    by_cases hk : k' = k
    · exact ⟨v, by simp only [lookupKey, if_pos hk]⟩
    · rw [List.map_cons] at h
      rcases List.mem_cons.mp h with h1 | h1
      · exact absurd h1.symm hk
      · obtain ⟨w, hw⟩ := ih h1
        exact ⟨w, by simp only [lookupKey, if_neg hk]; exact hw⟩

theorem filterMap_mergeRecord_map_date (p : List (String × PriceRec))
    (y : List (String × YieldRec)) :
    ∀ l : List String, (∀ k ∈ l, k ∈ p.map Prod.fst) →
      (l.filterMap (mergeRecord p y)).map MergedRec.date = l := by
  intro l
  induction l with
  | nil => intro _; rfl
  | cons k ks ih =>
    intro hmem
    obtain ⟨v, hv⟩ := lookupKey_isSome_of_mem p k (hmem k (List.mem_cons_self k ks))
    rw [List.filterMap_cons]
    rw [mergeRecord, hv, Option.map_some']
    simp only [List.map_cons]
    exact congrArg (List.cons k) (ih fun a ha => hmem a (List.mem_cons_of_mem _ ha))

/-- C3: the merged output of the Series Merge step contains exactly one
record per date key of `price_data` (its dates are a permutation of the
price dates, with no duplicates), ordered by date key descending; a date
absent from `yield_data` yields `PE = PB = divYield = none` rather than
omission; a date present only in `yield_data` never appears; and empty
`price_data` yields the empty overall result regardless of `yield_data`,
as on the concrete example input `pEx`. -/
theorem series_merge_spec (price_data : List (String × PriceRec))
    (yield_data : List (String × YieldRec))
    (hnd : (price_data.map Prod.fst).Nodup) :
    (mergeHistorical price_data yield_data = none ↔ price_data = []) ∧
    (∀ out, mergeHistorical price_data yield_data = some out →
      List.Perm (out.map MergedRec.date) (price_data.map Prod.fst) ∧
      (out.map MergedRec.date).Nodup ∧
      List.Pairwise (fun a b => b ≤ a) (out.map MergedRec.date) ∧
      (∀ r ∈ out, lookupKey yield_data r.date = none →
        r.PE = none ∧ r.PB = none ∧ r.divYield = none) ∧
      (∀ r ∈ out, r.date ∈ price_data.map Prod.fst)) ∧
    mergeHistorical pEx yield_data =
      some [{ indexName := "NIFTY 50", date := "2025-01-02", openVal := 1,
              high := 2, low := 3, close := 4, volume := 5,
              PE := (lookupKey yield_data "2025-01-02").bind YieldRec.PE,
              PB := (lookupKey yield_data "2025-01-02").bind YieldRec.PB,
              divYield :=
                (lookupKey yield_data "2025-01-02").bind YieldRec.divYield }] := by
  refine ⟨?_, ?_, rfl⟩
  · constructor
    · intro h
      by_cases he : price_data.isEmpty
      · exact List.isEmpty_iff.mp he
      · rw [mergeHistorical, if_neg he] at h
        exact absurd h (by simp)
    · intro h
      rw [mergeHistorical, if_pos (by rw [h]; rfl)]
  · intro out hout
    by_cases he : price_data.isEmpty
    · rw [mergeHistorical, if_pos he] at hout
      exact absurd hout (by simp)
    · rw [mergeHistorical, if_neg he] at hout
      have hout' := Option.some.inj hout
      have hdates : out.map MergedRec.date = sortDesc (price_data.map Prod.fst) := by
        rw [← hout']
        exact filterMap_mergeRecord_map_date price_data yield_data _
          (fun k hk => (sortDesc_perm _).mem_iff.mp hk)
      have hperm : List.Perm (out.map MergedRec.date) (price_data.map Prod.fst) := by
        rw [hdates]; exact sortDesc_perm _
      refine ⟨hperm, hperm.nodup_iff.mpr hnd, ?_, ?_, ?_⟩
      · rw [hdates]; exact sortDesc_sorted _
      · intro r hr hnone
        rw [← hout'] at hr
        obtain ⟨k, _, hk⟩ := List.mem_filterMap.mp hr
        obtain ⟨pr, _, hpr⟩ := Option.map_eq_some'.mp hk
        have hdate : r.date = k := by rw [← hpr]
        rw [← hpr]
        simp only
        rw [← hdate, hnone]
        exact ⟨rfl, rfl, rfl⟩
      · intro r hr
        have : r.date ∈ out.map MergedRec.date := List.mem_map_of_mem _ hr
        exact hperm.mem_iff.mp this

/-- Witness for C3: the theorem applied at the concrete single-date price
series `pEx` and the empty valuation series. -/
theorem series_merge_spec_witness :
    mergeHistorical pEx [] = none ↔ pEx = [] :=
  (series_merge_spec pEx [] (by decide)).1

/-! ### Session-layer lemmas -/

theorem attemptTrace_shape (a : AttemptOutcome) (c : Bool) :
    (attemptTrace a c).head? = some FetchEvent.clientCreate ∧
    (attemptTrace a c).getLast? = some FetchEvent.clientClose := by
  rcases a with ⟨w, g⟩
  cases w <;> cases c <;> cases g <;> exact ⟨rfl, rfl⟩

theorem attemptTrace_referer (a : AttemptOutcome) (c : Bool) (r : String) :
    FetchEvent.getCall r ∈ attemptTrace a c → r = NSE_OPTION_CHAIN := by
  rcases a with ⟨w, g⟩
  intro h
  cases w <;> cases c <;> cases g <;> simp_all [attemptTrace]

theorem fetchLoop_length_le (tr : Nat → AttemptOutcome) (retries : Nat) :
    ∀ l : List Nat, (fetchLoop tr retries l).2.length ≤ l.length := by
  intro l
  induction l with
  | nil => simp [fetchLoop]
  | cons i rest ih =>
    rw [fetchLoop]
    cases h : attemptResult (tr i) (decide (i < retries)) with
    | some j => simp
    | none => simpa using Nat.succ_le_succ ih

theorem fetchLoop_result (tr : Nat → AttemptOutcome) (retries : Nat) :
    ∀ l : List Nat, (fetchLoop tr retries l).1 =
      l.findSome? (fun i => attemptResult (tr i) (decide (i < retries))) := by
  intro l
  induction l with
  | nil => rfl
  | cons i rest ih =>
    rw [fetchLoop, List.findSome?_cons]
    cases h : attemptResult (tr i) (decide (i < retries)) with
    | some j => rfl
    | none => simpa using ih

theorem fetchLoop_none_length (tr : Nat → AttemptOutcome) (retries : Nat) :
    ∀ l : List Nat, (fetchLoop tr retries l).1 = none →
      (fetchLoop tr retries l).2.length = l.length := by
  intro l
  induction l with
  | nil => intro _; rfl
  | cons i rest ih =>
    intro hnone
    rw [fetchLoop] at hnone ⊢
    cases h : attemptResult (tr i) (decide (i < retries)) with
    | some j => rw [h] at hnone; simp at hnone
    | none =>
      rw [h] at hnone
      simp only [List.length_cons]
      exact congrArg Nat.succ (ih (by simpa using hnone))

theorem fetchLoop_segs (tr : Nat → AttemptOutcome) (retries : Nat) :
    ∀ l : List Nat, (fetchLoop tr retries l).2 =
      (l.take (fetchLoop tr retries l).2.length).map
        (fun i => attemptTrace (tr i) (decide (i < retries))) := by
  intro l
  induction l with
  | nil => rfl
  | cons i rest ih =>
    rw [fetchLoop]
    cases h : attemptResult (tr i) (decide (i < retries)) with
    | some j => simp
    | none =>
      simp only [List.length_cons, List.take_succ_cons, List.map_cons]
      exact congrArg _ ih

theorem fetchLoop_first_success (tr : Nat → AttemptOutcome) (retries : Nat)
    (i : Nat) (rest : List Nat) (j : JsonDict)
    (h : attemptResult (tr i) (decide (i < retries)) = some j) :
    fetchLoop tr retries (i :: rest) =
      (some j, [attemptTrace (tr i) (decide (i < retries))]) := by
  rw [fetchLoop, h]

/-- C4 (counterexample): contrary to the claim, the warmup performs no GET
to the secondary resource even in the non-fast variant — a fully
successful non-fast warmup performs exactly one GET, to the home
resource. -/
theorem session_warmup_counterexample :
    (_warmup_session true false).gets = [NSE_HOMEPAGE] ∧
    (_warmup_session true false).gets.length = 1 ∧
    NSE_OPTION_CHAIN ∉ (_warmup_session true false).gets := by decide

/-- C4 (amended): warmup (in both the sync and async variants, which share
one state machine) performs a single GET to the fixed home resource;
it returns true iff that request succeeds with 2xx; on success the GET is
followed by one randomized sleep drawn from [0.1, 0.2] in fast mode and
from [0.3, 0.5] otherwise; a transport error aborts (no sleep) and
returns false, with no retry inside warmup itself. -/
theorem session_warmup_amended (homeOk fast : Bool) :
    (_warmup_session homeOk fast).ok = homeOk ∧
    (_warmup_session homeOk fast).gets = [NSE_HOMEPAGE] ∧
    (_warmup_session homeOk fast).sleeps =
      (if homeOk then
        [if fast then (WARMUP_DELAY_MIN, WARMUP_DELAY_MAX) else (3/10, 1/2)]
       else []) := by
  cases homeOk <;> cases fast <;> exact ⟨rfl, rfl, rfl⟩

/-- C2: the one-shot `fetch` performs at most `retries + 1` attempts, each
attempt's event segment beginning with a fresh client creation and ending
with that client's teardown; every GET it issues carries
`Referer: NSE_OPTION_CHAIN`; its result is the first successful attempt's
parsed JSON (`findSome?` over the attempt indices), and when every attempt
fails it returns the empty sentinel after exactly `retries + 1` attempts;
the executed segments are exactly the per-attempt traces of the attempted
prefix; and an attempt whose warmup fails while retries remain sleeps and
continues without issuing its GET. -/
theorem fetch_retry_spec (tr : Nat → AttemptOutcome) (retries : Nat) :
    (fetch tr retries).2.length ≤ retries + 1 ∧
    (∀ s ∈ (fetch tr retries).2,
      s.head? = some FetchEvent.clientCreate ∧
      s.getLast? = some FetchEvent.clientClose) ∧
    (∀ s ∈ (fetch tr retries).2, ∀ r,
      FetchEvent.getCall r ∈ s → r = NSE_OPTION_CHAIN) ∧
    (fetch tr retries).1 =
      (List.range (retries + 1)).findSome?
        (fun i => attemptResult (tr i) (decide (i < retries))) ∧
    ((fetch tr retries).1 = none →
      (fetch tr retries).2.length = retries + 1) ∧
    (fetch tr retries).2 =
      ((List.range (retries + 1)).take (fetch tr retries).2.length).map
        (fun i => attemptTrace (tr i) (decide (i < retries))) ∧
    (∀ a : AttemptOutcome, a.warmupOk = false →
      attemptTrace a true =
        [FetchEvent.clientCreate, FetchEvent.warmupCall,
         FetchEvent.sleepBackoff, FetchEvent.clientClose] ∧
      ∀ r, FetchEvent.getCall r ∉ attemptTrace a true) := by
  refine ⟨?_, ?_, ?_, ?_, ?_, ?_, ?_⟩
  · simpa using fetchLoop_length_le tr retries (List.range (retries + 1))
  · intro s hs
    have hsegs := fetchLoop_segs tr retries (List.range (retries + 1))
    rw [fetch] at hs
    rw [hsegs] at hs
    obtain ⟨i, _, hi⟩ := List.mem_map.mp hs
    rw [← hi]
    exact attemptTrace_shape _ _
  · intro s hs r hr
    have hsegs := fetchLoop_segs tr retries (List.range (retries + 1))
    rw [fetch] at hs
    rw [hsegs] at hs
    obtain ⟨i, _, hi⟩ := List.mem_map.mp hs
    rw [← hi] at hr
    exact attemptTrace_referer _ _ _ hr
  · exact fetchLoop_result tr retries (List.range (retries + 1))
  · intro h
    simpa using fetchLoop_none_length tr retries (List.range (retries + 1)) h
  · exact fetchLoop_segs tr retries (List.range (retries + 1))
  · intro a ha
    constructor
    · rw [attemptTrace, if_pos (by simp [ha])]
    · intro r hr
      rw [attemptTrace, if_pos (by simp [ha])] at hr
      simp at hr

/-- Witness for C2: the spec's example transport (warmup fails on attempts
0 and 1, succeeds on attempt 2) with `retries = 2` yields the parsed
result with exactly 3 client-creation/teardown cycles. -/
theorem fetch_retry_spec_witness :
    (fetch trEx 2).1 = some [("k", "v")] ∧ (fetch trEx 2).2.length = 3 := by
  have h := (fetch_retry_spec trEx 2).2.2.2.1
  constructor
  · rw [h]; decide
  · decide

theorem countP_range_lt (n r : Nat) :
    (List.range n).countP (fun i => decide (i < r)) = min n r := by
  induction n with
  | zero => simp
  | succ m ih =>
    rw [List.range_succ, List.countP_append, ih]
    by_cases h : m < r
    · have h1 : List.countP (fun i => decide (i < r)) [m] = 1 := by
        simp [List.countP_cons, h]
      rw [h1]
      omega
    · have h1 : List.countP (fun i => decide (i < r)) [m] = 0 := by
        simp [List.countP_cons, h]
      rw [h1]
      omega

theorem sessionFetchLoop_cons (getO : Nat → SessOutcome) (warmO : Nat → Bool)
    (retries : Nat) (warmed : Bool) (i : Nat) (rest : List Nat) :
    sessionFetchLoop getO warmO retries warmed (i :: rest) =
      (if _fetch_with_session (getO i) ≠ [] then
        ⟨_fetch_with_session (getO i), 1, 0, warmed⟩
      else if i < retries then
        let res := sessionFetchLoop getO warmO retries (warmO i) rest
        ⟨res.result, res.requestAttempts + 1, res.rewarmups + 1, res.warmedUp⟩
      else
        let res := sessionFetchLoop getO warmO retries warmed rest
        ⟨res.result, res.requestAttempts + 1, res.rewarmups,
          res.warmedUp⟩ : SessionFetchResult) := rfl

theorem sessionFetchLoop_allEmpty (getO : Nat → SessOutcome)
    (warmO : Nat → Bool) (retries : Nat)
    (hempty : ∀ i, _fetch_with_session (getO i) = []) :
    ∀ (l : List Nat) (warmed : Bool),
      (sessionFetchLoop getO warmO retries warmed l).result = [] ∧
      (sessionFetchLoop getO warmO retries warmed l).requestAttempts =
        l.length ∧
      (sessionFetchLoop getO warmO retries warmed l).rewarmups =
        l.countP (fun i => decide (i < retries)) := by
  intro l
  induction l with
  | nil => intro warmed; exact ⟨rfl, rfl, rfl⟩
  | cons i rest ih =>
    intro warmed
    rw [sessionFetchLoop_cons, hempty i,
      if_neg (by simp : ¬(([] : JsonDict) ≠ []))]
    by_cases hi : i < retries
    · rw [if_pos hi]
      have h := ih (warmO i)
      refine ⟨h.1, ?_, ?_⟩
      · show (sessionFetchLoop getO warmO retries (warmO i) rest).requestAttempts
            + 1 = rest.length + 1
        rw [h.2.1]
      · show (sessionFetchLoop getO warmO retries (warmO i) rest).rewarmups + 1
            = List.countP (fun j => decide (j < retries)) (i :: rest)
        rw [h.2.2, List.countP_cons]
        simp [hi]
    · rw [if_neg hi]
      have h := ih warmed
      refine ⟨h.1, ?_, ?_⟩
      · show (sessionFetchLoop getO warmO retries warmed rest).requestAttempts
            + 1 = rest.length + 1
        rw [h.2.1]
      · show (sessionFetchLoop getO warmO retries warmed rest).rewarmups
            = List.countP (fun j => decide (j < retries)) (i :: rest)
        rw [h.2.2, List.countP_cons]
        simp [hi]

theorem attemptResult_okJson (j : JsonDict) (c : Bool) :
    attemptResult ⟨true, GetOutcome.okJson j⟩ c = some j := by
  rw [attemptResult]
  simp

/-- C10: `_fetch_with_session` returns the empty dict both on a transport
or decode failure and on a 2xx response whose body is the empty JSON
object, making the two indistinguishable; `NSESession.fetch` counts any
empty per-attempt result as a failed attempt, so against a transport that
returns an empty-object 2xx body on every attempt it performs exactly
`retries + 1` request attempts, with a fast re-warmup after each of the
first `retries`, and returns the empty dict; the one-shot `fetch`, by
contrast, returns an empty-object 2xx body immediately as that attempt's
successful result (one single attempt). -/
theorem session_empty_body_spec :
    (_fetch_with_session SessOutcome.transportError = [] ∧
     _fetch_with_session (SessOutcome.okBody (some [])) = []) ∧
    (∀ (warmO : Nat → Bool) (preW warmed0 : Bool) (retries : Nat),
      (sessionFetch (fun _ => SessOutcome.okBody (some [])) warmO preW warmed0
        retries).result = [] ∧
      (sessionFetch (fun _ => SessOutcome.okBody (some [])) warmO preW warmed0
        retries).requestAttempts = retries + 1 ∧
      (sessionFetch (fun _ => SessOutcome.okBody (some [])) warmO preW warmed0
        retries).rewarmups = retries) ∧
    (∀ retries : Nat,
      (fetch (fun _ => ⟨true, GetOutcome.okJson []⟩) retries).1 = some [] ∧
      (fetch (fun _ => ⟨true, GetOutcome.okJson []⟩) retries).2.length = 1) := by
  refine ⟨⟨rfl, rfl⟩, ?_, ?_⟩
  · intro warmO preW warmed0 retries
    have h := sessionFetchLoop_allEmpty (fun _ => SessOutcome.okBody (some []))
      warmO retries (fun _ => rfl) (List.range (retries + 1))
      (if warmed0 then warmed0 else preW)
    rw [sessionFetch]
    refine ⟨h.1, ?_, ?_⟩
    · rw [h.2.1, List.length_range]
    · rw [h.2.2, countP_range_lt]
      omega
  · intro retries
    have hfs := fetchLoop_first_success (fun _ => ⟨true, GetOutcome.okJson []⟩)
      retries 0 ((List.range retries).map Nat.succ) []
      (attemptResult_okJson [] _)
    rw [fetch, List.range_succ_eq_map, hfs]
    exact ⟨rfl, rfl⟩

/-- C5 (code bug): `SECTORAL_OVERRIDE` is defined but never consulted, so
`get_index_list` does not force the two override names into a sectoral
category.  On an upstream response in which they appear under the
derivatives category, both are emitted with subType
"Broad Market Indices". -/
theorem sectoral_override_not_applied :
    get_index_list
        [("Indices Eligible in Derivatives",
          ["NIFTY BANK", "NIFTY FIN SERVICE"])] =
      some
        [{ indexName := "NIFTY BANK", subType := "Broad Market Indices",
           derivativesEligiblity := true },
         { indexName := "NIFTY FIN SERVICE",
           subType := "Broad Market Indices",
           derivativesEligiblity := true }] ∧
    "NIFTY BANK" ∈ SECTORAL_OVERRIDE ∧
    "NIFTY FIN SERVICE" ∈ SECTORAL_OVERRIDE ∧
    "Broad Market Indices" ≠ "Sectoral Market Indices" := by
  exact ⟨rfl, by decide, by decide, by decide⟩

/-- C6 (code bug): the shape `get_index_historical_data` actually emits
does not match the shape its docstring documents: the code returns
top-level key "indexData" with per-record key "indexName" and an extra
"volume" key, while the docstring enumerates top-level "data" and
per-record "indexSymbol" with no "volume". -/
theorem historical_output_shape_mismatch :
    indexHistoricalTopLevelKey ≠ indexHistoricalDocTopLevelKey ∧
    indexHistoricalRecordKeys ≠ indexHistoricalDocRecordKeys ∧
    "indexSymbol" ∈ indexHistoricalDocRecordKeys ∧
    "indexSymbol" ∉ indexHistoricalRecordKeys ∧
    "indexName" ∈ indexHistoricalRecordKeys ∧
    "volume" ∈ indexHistoricalRecordKeys ∧
    "volume" ∉ indexHistoricalDocRecordKeys := by decide

/-- C7: validation failures of `get_index_historical_data` short-circuit
to the empty result with no fetch call issued (hence no batch requested):
this holds when the start date does not parse, when the end date does not
parse, and when both parse with start strictly after end. -/
theorem validation_short_circuit
    (oracleHist : ℤ × ℤ → Option (List HistRow))
    (oracleYield : ℤ × ℤ → Option (List YieldRow))
    (nowDay : ℤ) (s e : String) :
    (parseYMDDay s = none →
      get_index_historical_data oracleHist oracleYield nowDay s (some e) =
        (none, [])) ∧
    (parseYMDDay e = none →
      get_index_historical_data oracleHist oracleYield nowDay s (some e) =
        (none, [])) ∧
    (∀ ds de : ℤ, parseYMDDay s = some ds → parseYMDDay e = some de →
      de < ds →
      get_index_historical_data oracleHist oracleYield nowDay s (some e) =
        (none, [])) := by
  refine ⟨?_, ?_, ?_⟩
  · intro h
    simp [get_index_historical_data, h]
  · intro h
    cases hs : parseYMDDay s with
    | none => simp [get_index_historical_data, hs]
    | some ds => simp [get_index_historical_data, hs, h]
  · intro ds de hs he hlt
    simp only [get_index_historical_data, hs, he]
    rw [if_pos hlt]

/-- Witness for C7: the theorem applied at the concrete inverted range
2025-01-10 to 2025-01-05 (both dates parse; start is after end). -/
theorem validation_short_circuit_witness :
    get_index_historical_data (fun _ => none) (fun _ => none) 0
      "2025-01-10" (some "2025-01-05") = (none, []) :=
  (validation_short_circuit (fun _ => none) (fun _ => none) 0
      "2025-01-10" "2025-01-05").2.2
    (daysFromCivil 2025 1 10) (daysFromCivil 2025 1 5)
    (by decide) (by decide) (by decide)
